import Mathlib

/-!  Verification development for the agentic-kg-explorer repository: shallow
embedding of the retrieval pipeline (search planner, routing, web expander,
synthesizer), the critic scorer, the failure analyzer, and the prompt
registry.  Python dictionaries become structures whose possibly-absent keys
are `Option` fields, Python truthiness on strings is `truthy`, floats are
modelled as `ℚ`, and external collaborators (SHA256/MD5 digests, the
embedding client, the LLM provider, the wall clock) are parameters of the
embedded functions. -/

namespace AgentiKG

/-- Python truthiness of an optional string: `None` and `""` are falsy. -/
def truthy : Option String → Bool
  | none => false
  | some s => s != ""

/-- Char-list prefix test (helper for the Python substring operator). -/
def charsPrefix : List Char → List Char → Bool
  | [], _ => true
  | _ :: _, [] => false
  | a :: as, b :: bs => a == b && charsPrefix as bs

/-- Char-list substring test (helper for the Python substring operator). -/
def charsSub (needle : List Char) : List Char → Bool
  | [] => needle.isEmpty
  | h :: t => charsPrefix needle (h :: t) || charsSub needle t

/-- Python's `needle in hay` on strings (substring containment). -/
def pyIn (needle hay : String) : Bool := charsSub needle.data hay.data

/-- Round to the nearest integer with ties to even, as Python's `round`. -/
def roundHalfEven (q : ℚ) : ℤ :=
  let n := ⌊q⌋
  let r := q - n
  if r < 1/2 then n
  else if 1/2 < r then n + 1
  else if n % 2 == 0 then n else n + 1

/-- Python's `round(q, 2)` (two decimal places, ties to even). -/
def pyRound2 (q : ℚ) : ℚ := (roundHalfEven (q * 100) : ℚ) / 100

/-! ## Synthesizer (src/agents/nodes/synthesizer.py)

A serialized graph record is a Python dict; the synthesizer only inspects,
for each value of the record, whether it is a dict carrying a `"properties"`
key, its `"labels"` list, and the `id` / `name` / `description` entries of
the property bag.  `Props` keeps exactly those entries (`none` = key
absent). -/

/-- Property bag of a serialized node as the synthesizer reads it. -/
structure Props where
  id : Option String
  name : Option String
  description : Option String
deriving DecidableEq

/-- One value of a serialized record: either a dict containing a
`"properties"` key (a serialized node, or a serialized relationship, whose
`"labels"` default to `[]`), or any other value, which every synthesizer
helper ignores. -/
inductive RVal where
  | propDict (labels : List String) (props : Props)
  | other
deriving DecidableEq

/-- A serialized record: its dict values in insertion order. -/
abbrev KGRecord := List RVal

/-- A vector hit as the synthesizer reads it (`node_id` / `title` may be
absent, `score` is always set by the retriever). -/
structure VHit where
  node_id : Option String
  node_label : Option String
  title : Option String
  text : String
  score : ℚ
deriving DecidableEq

/-- A web search result as built by the web-search node (all keys set,
defaulting to `""` / `0`). -/
structure WebResult where
  title : String
  url : String
  content : String
  score : ℚ
deriving DecidableEq

/-- A cited source entry `{type, id, name}`. -/
structure Source where
  type : String
  id : String
  name : String
deriving DecidableEq

/-- Lower-cased node ids collected from KG records (`_calc_entity_match_score`,
first loop: truthy `props["id"]`, lower-cased). -/
def kgFoundIds (kg : List KGRecord) : List String :=
  kg.flatMap fun rec =>
    rec.filterMap fun v =>
      match v with
      | .propDict _ ps => match ps.id with
        | some s => if s != "" then some s.toLower else none
        | none => none
      | .other => none

/-- Lower-cased node names collected from KG records. -/
def kgFoundNames (kg : List KGRecord) : List String :=
  kg.flatMap fun rec =>
    rec.filterMap fun v =>
      match v with
      | .propDict _ ps => match ps.name with
        | some s => if s != "" then some s.toLower else none
        | none => none
      | .other => none

/-- Lower-cased `node_id`s collected from vector hits. -/
def vecFoundIds (vec : List VHit) : List String :=
  vec.filterMap fun vr =>
    match vr.node_id with
    | some s => if s != "" then some s.toLower else none
    | none => none

/-- Lower-cased `title`s collected from vector hits. -/
def vecFoundNames (vec : List VHit) : List String :=
  vec.filterMap fun vr =>
    match vr.title with
    | some s => if s != "" then some s.toLower else none
    | none => none

/-- The `matched` accumulator of `_calc_entity_match_score`: +1 for an exact
id/name match, +0.5 for a substring match. -/
def entityMatched (entities ids names : List String) : ℚ :=
  entities.foldl
    (fun acc e =>
      let el := e.toLower
      if ids.contains el || names.contains el then acc + 1
      else if ids.any (fun fid => pyIn el fid) then acc + 1/2
      else if names.any (fun fn => pyIn el fn) then acc + 1/2
      else acc)
    0

/-- `_calc_entity_match_score`: fraction of requested entities found,
capped at 1; neutral 0.5 when no entities were requested. -/
def calcEntityMatchScore (entities : List String) (kg : List KGRecord)
    (vec : List VHit) : ℚ :=
  if entities.isEmpty then 1/2
  else
    let ids := kgFoundIds kg ++ vecFoundIds vec
    let names := kgFoundNames kg ++ vecFoundNames vec
    min (entityMatched entities ids names / entities.length) 1

/-- `_count_distinct_entities`: distinct truthy node ids across KG records. -/
def countDistinctEntities (kg : List KGRecord) : ℕ :=
  (kg.flatMap fun rec =>
    rec.filterMap fun v =>
      match v with
      | .propDict _ ps => match ps.id with
        | some s => if s != "" then some s else none
        | none => none
      | .other => none).dedup.length

/-- `_calc_intent_fulfillment_score`: per-intent rule on result counts. -/
def calcIntentFulfillmentScore (intent : Option String) (kg : List KGRecord)
    (vec : List VHit) (web : List WebResult) : ℚ :=
  let kgc := kg.length
  let vc := vec.length
  let wc := web.length
  if intent == some "lookup" then
    if 1 ≤ kgc then 1
    else if 1 ≤ vc then 8/10
    else if 1 ≤ wc then 1/2
    else 0
  else if intent == some "path" then
    if 2 ≤ kgc then 1
    else if 1 ≤ kgc then 7/10
    else if 1 ≤ vc then 1/2
    else 0
  else if intent == some "comparison" then
    let de := countDistinctEntities kg
    if 2 ≤ de then 1
    else if de == 1 && (0 < vc || 0 < wc) then 6/10
    else if de == 1 then 4/10
    else 0
  else if intent == some "expansion" then
    if 1 ≤ wc then 9/10
    else if 1 ≤ kgc || 1 ≤ vc then 7/10
    else 0
  else if intent == some "out_of_scope" then 0
  else 1/2

/-- Per-node filled-field count for `_calc_completeness_score`
(fields `name`, `description`, `id`, truthiness-tested). -/
def filledCount (ps : Props) : ℕ :=
  (if truthy ps.name then 1 else 0) + (if truthy ps.description then 1 else 0)
    + (if truthy ps.id then 1 else 0)

/-- Property bags of all dict-with-properties values across KG records. -/
def recordProps (kg : List KGRecord) : List Props :=
  kg.flatMap fun rec =>
    rec.filterMap fun v =>
      match v with
      | .propDict _ ps => some ps
      | .other => none

/-- `_calc_completeness_score`: fraction of the key fields `name`,
`description`, `id` populated across all result nodes; 0.5 when neutral. -/
def calcCompletenessScore (kg : List KGRecord) : ℚ :=
  if kg.isEmpty then 1/2
  else
    let nodes := recordProps kg
    let total : ℕ := 3 * nodes.length
    let filled : ℕ := (nodes.map filledCount).sum
    if total == 0 then 1/2 else (filled : ℚ) / total

/-- `_calc_vector_similarity_score`: mean of the truthy (non-zero) hit
scores; 0.5 when there are no hits or no truthy scores. -/
def calcVectorSimilarityScore (vec : List VHit) : ℚ :=
  if vec.isEmpty then 1/2
  else
    let scores := (vec.map VHit.score).filter (fun s => s != 0)
    if scores.isEmpty then 1/2
    else scores.sum / scores.length

/-- `_calculate_confidence`: weighted sum of the four dimension scores
(0.3 / 0.3 / 0.2 / 0.2), rounded to two decimals; 0 when there is no
evidence at all. -/
def calculateConfidence (kg : List KGRecord) (intent : Option String)
    (vec : List VHit) (web : List WebResult) (entities : List String) : ℚ :=
  if kg.isEmpty && vec.isEmpty && web.isEmpty then 0
  else
    let e := calcEntityMatchScore entities kg vec
    let i := calcIntentFulfillmentScore intent kg vec web
    let c := calcCompletenessScore kg
    let v := calcVectorSimilarityScore vec
    pyRound2 (e * (3/10) + i * (3/10) + c * (1/5) + v * (1/5))

/-- `_extract_sources`: every dict-with-properties value whose `id` is truthy
contributes one `{type = first label or Unknown, id, name}` entry,
deduplicated by id in encounter order. -/
def extractSources (kg : List KGRecord) : List Source :=
  (kg.foldl
    (fun (acc : List Source × List String) rec =>
      rec.foldl
        (fun acc v =>
          match v with
          | .propDict labels ps =>
            match ps.id with
            | some nid =>
              if nid != "" && !(acc.2.contains nid) then
                (acc.1 ++ [⟨labels.headD "Unknown", nid, ps.name.getD nid⟩],
                 acc.2 ++ [nid])
              else acc
            | none => acc
          | .other => acc)
        acc)
    ([], [])).1

/-- `_extract_web_sources`: every web result with a truthy url contributes
`{type = Web, id = url, name = title}`. -/
def extractWebSources (web : List WebResult) : List Source :=
  web.filterMap fun r =>
    if r.url != "" then some ⟨"Web", r.url, r.title⟩ else none

/-- `_simple_format_results`: deterministic bulleted formatter used when no
LLM provider is available. -/
def simpleFormatResults (kg : List KGRecord) : String :=
  if kg.isEmpty then "No results found in the knowledge graph."
  else
    let parts := kg.flatMap fun rec =>
      rec.filterMap fun v =>
        match v with
        | .propDict _ ps =>
          let name := ps.name.getD (ps.id.getD "Unknown")
          let desc := ps.description.getD ""
          if desc != "" then some ("- **" ++ name ++ "**: " ++ desc)
          else some ("- **" ++ name ++ "**")
        | .other => none
    if !parts.isEmpty then
      "Here's what I found:\n\n" ++ String.intercalate "\n" (parts.take 10)
    else
      "Found " ++ toString kg.length ++ " results, but couldn't format them properly."

/-- Outcome of the external LLM provider's `generate` call: an answer, or a
raised exception. -/
inductive LLMOutcome where
  | ok (answer : String)
  | err
deriving DecidableEq

/-- The slice of the pipeline state that `synthesize_answer` reads
(`entities` / result lists already defaulted to `[]` as the source does with
`or []`). -/
structure SynthState where
  user_query : String
  intent : Option String
  entities : List String
  kg_results : List KGRecord
  vector_results : List VHit
  web_results : List WebResult
  error : Option String
deriving DecidableEq

/-- The three fields `synthesize_answer` writes back onto the state. -/
structure SynthOutput where
  answer : String
  sources : List Source
  confidence : ℚ
deriving DecidableEq

/-- Fixed deflection message for out-of-scope queries. -/
def deflectionMsg : String :=
  "I'm sorry, but this question is outside my area of expertise. I specialize in Agentic AI topics including principles, methods, implementations, and standards. Could you ask something related to AI agents?"

/-- Fixed message when no evidence was found. -/
def notFoundMsg : String :=
  "I couldn't find information about that in the knowledge graph or web search."

/-- `synthesize_answer`: branch structure of the synthesizer. `provider` is
`none` when no LLM provider is configured, `some outcome` otherwise, where
`outcome` is what the provider's `generate` call did. -/
def synthesizeAnswer (st : SynthState) (provider : Option LLMOutcome) :
    SynthOutput :=
  if st.intent == some "out_of_scope" then
    ⟨deflectionMsg, [], 0⟩
  else
    let hasAny := !st.kg_results.isEmpty || !st.vector_results.isEmpty
      || !st.web_results.isEmpty
    if truthy st.error && !hasAny then
      ⟨"I encountered an error: " ++ st.error.getD "", [], 0⟩
    else if !hasAny then
      ⟨notFoundMsg, [], 1/10⟩
    else
      match provider with
      | none =>
        ⟨simpleFormatResults st.kg_results, extractSources st.kg_results, 1/2⟩
      | some (.ok a) =>
        ⟨a, extractSources st.kg_results ++ extractWebSources st.web_results,
         calculateConfidence st.kg_results st.intent st.vector_results
           st.web_results st.entities⟩
      | some .err =>
        ⟨simpleFormatResults st.kg_results,
         extractSources st.kg_results ++ extractWebSources st.web_results, 1/2⟩

/-! ## Search planner (src/agents/nodes/search_planner.py) and pipeline
routing (src/agents/graph.py, src/agents/nodes/web_search.py) -/

/-- The `lookup_method` entry of `CYPHER_TEMPLATES`. -/
def cypherLookupMethod : String :=
"
        // Find method by name (case-insensitive)
        MATCH (m:Method)
        WHERE toLower(m.name) CONTAINS toLower($entity)
           OR m.id = $entity
        OPTIONAL MATCH (m)-[addr:ADDRESSES]->(p:Principle)
        OPTIONAL MATCH (i:Implementation)-[impl:IMPLEMENTS]->(m)
        RETURN m,
               collect(DISTINCT \x7bprinciple: p, role: addr.role, weight: addr.weight\x7d) as principles,
               collect(DISTINCT \x7bimplementation: i, support_level: impl.support_level\x7d) as implementations
        LIMIT 10
    "

/-- The `lookup_implementation` entry of `CYPHER_TEMPLATES`. -/
def cypherLookupImplementation : String :=
"
        // Find implementation by name
        MATCH (i:Implementation)
        WHERE toLower(i.name) CONTAINS toLower($entity)
           OR i.id = $entity
        OPTIONAL MATCH (i)-[impl:IMPLEMENTS]->(m:Method)
        OPTIONAL MATCH (m)-[addr:ADDRESSES]->(p:Principle)
        RETURN i,
               collect(DISTINCT \x7bmethod: m, support_level: impl.support_level\x7d) as methods,
               collect(DISTINCT p) as principles
        LIMIT 10
    "

/-- The `lookup_principle` entry of `CYPHER_TEMPLATES`. -/
def cypherLookupPrinciple : String :=
"
        // Find principle by name
        MATCH (p:Principle)
        WHERE toLower(p.name) CONTAINS toLower($entity)
           OR p.id = $entity
        OPTIONAL MATCH (m:Method)-[addr:ADDRESSES]->(p)
        OPTIONAL MATCH (i:Implementation)-[:IMPLEMENTS]->(m)
        RETURN p,
               collect(DISTINCT \x7bmethod: m, role: addr.role, weight: addr.weight\x7d) as methods,
               count(DISTINCT i) as implementation_count
        LIMIT 10
    "

/-- The `path_principle_to_methods` entry of `CYPHER_TEMPLATES`. -/
def cypherPathPrincipleToMethods : String :=
"
        // Find methods that address a principle
        MATCH (p:Principle)
        WHERE toLower(p.name) CONTAINS toLower($entity)
           OR p.id = $entity
        MATCH (m:Method)-[addr:ADDRESSES]->(p)
        OPTIONAL MATCH (i:Implementation)-[impl:IMPLEMENTS]->(m)
        RETURN p, m, addr,
               collect(DISTINCT \x7bimplementation: i, support_level: impl.support_level\x7d) as implementations
        ORDER BY addr.weight DESC
        LIMIT 20
    "

/-- The `path_method_to_implementations` entry of `CYPHER_TEMPLATES`. -/
def cypherPathMethodToImplementations : String :=
"
        // Find implementations of a method
        MATCH (m:Method)
        WHERE toLower(m.name) CONTAINS toLower($entity)
           OR m.id = $entity
        MATCH (i:Implementation)-[impl:IMPLEMENTS]->(m)
        OPTIONAL MATCH (m)-[addr:ADDRESSES]->(p:Principle)
        RETURN m, i, impl,
               collect(DISTINCT \x7bprinciple: p, role: addr.role\x7d) as principles
        ORDER BY impl.support_level
        LIMIT 20
    "

/-- The `path_implementation_to_principles` entry of `CYPHER_TEMPLATES`. -/
def cypherPathImplementationToPrinciples : String :=
"
        // Find principles supported by an implementation
        MATCH (i:Implementation)
        WHERE toLower(i.name) CONTAINS toLower($entity)
           OR i.id = $entity
        MATCH (i)-[impl:IMPLEMENTS]->(m:Method)-[addr:ADDRESSES]->(p:Principle)
        RETURN i, m, p, impl, addr
        ORDER BY p.name, addr.weight DESC
        LIMIT 30
    "

/-- The `comparison` entry of `CYPHER_TEMPLATES`. -/
def cypherComparison : String :=
"
        // Compare two implementations
        MATCH (i1:Implementation), (i2:Implementation)
        WHERE (toLower(i1.name) CONTAINS toLower($entity1) OR i1.id = $entity1)
          AND (toLower(i2.name) CONTAINS toLower($entity2) OR i2.id = $entity2)
        OPTIONAL MATCH (i1)-[impl1:IMPLEMENTS]->(m1:Method)
        OPTIONAL MATCH (i2)-[impl2:IMPLEMENTS]->(m2:Method)
        OPTIONAL MATCH (m1)-[:ADDRESSES]->(p:Principle)<-[:ADDRESSES]-(m2)
        RETURN i1, i2,
               collect(DISTINCT m1) as methods1,
               collect(DISTINCT m2) as methods2,
               collect(DISTINCT p) as common_principles
    "

/-- The `CYPHER_TEMPLATES` catalog, keyed by template key. -/
def cypherTemplates (key : String) : String :=
  if key == "lookup_method" then cypherLookupMethod
  else if key == "lookup_implementation" then cypherLookupImplementation
  else if key == "lookup_principle" then cypherLookupPrinciple
  else if key == "path_principle_to_methods" then cypherPathPrincipleToMethods
  else if key == "path_method_to_implementations" then cypherPathMethodToImplementations
  else if key == "path_implementation_to_principles" then cypherPathImplementationToPrinciples
  else if key == "comparison" then cypherComparison
  else ""

/-- A search strategy dict; absent keys are `none`. -/
structure SearchStrategy where
  retrieval_type : String
  cypher_template : Option String := none
  parameters : List (String × String) := []
  template_key : Option String := none
  error : Option String := none
  message : Option String := none
  vector_query : Option String := none
deriving DecidableEq

/-- Principle-name patterns hard-coded in the planner's entity-type check. -/
def principlePatterns : List String :=
  ["perception", "memory", "planning", "reasoning", "tool use",
   "reflection", "grounding", "learning", "multi-agent", "guardrails", "tracing"]

/-- Implementation-name patterns hard-coded in the planner. -/
def implementationPatterns : List String :=
  ["langchain", "crewai", "autogen", "langgraph", "semantic kernel"]

/-- `_plan_lookup`. -/
def planLookup (entities : List String) : SearchStrategy :=
  match entities with
  | [] =>
    { retrieval_type := "graph_only", cypher_template := none,
      parameters := [], error := some "No entities found for lookup" }
  | entity :: _ =>
    let el := entity.toLower
    let key :=
      if principlePatterns.any (fun p => pyIn p el) then "lookup_principle"
      else if implementationPatterns.any (fun p => pyIn p el) then "lookup_implementation"
      else "lookup_method"
    { retrieval_type := "graph_only", cypher_template := some (cypherTemplates key),
      parameters := [("entity", entity)], template_key := some key }

/-- `_plan_path`. -/
def planPath (entities : List String) : SearchStrategy :=
  match entities with
  | [] =>
    { retrieval_type := "graph_only", cypher_template := none,
      parameters := [], error := some "No entities found for path query" }
  | entity :: _ =>
    let el := entity.toLower
    let key :=
      if principlePatterns.any (fun p => pyIn p el) then "path_principle_to_methods"
      else if implementationPatterns.any (fun p => pyIn p el) then "path_implementation_to_principles"
      else "path_method_to_implementations"
    { retrieval_type := "graph_only", cypher_template := some (cypherTemplates key),
      parameters := [("entity", entity)], template_key := some key }

/-- `_plan_comparison`. -/
def planComparison (entities : List String) : SearchStrategy :=
  match entities with
  | e1 :: e2 :: _ =>
    { retrieval_type := "graph_only", cypher_template := some cypherComparison,
      parameters := [("entity1", e1), ("entity2", e2)], template_key := some "comparison" }
  | _ =>
    { retrieval_type := "graph_only", cypher_template := none,
      parameters := [], error := some "Comparison requires at least 2 entities" }

/-- `_maybe_add_vector_search`: upgrade the retrieval mode when the vector
store is available (`storeAvailable` models `get_vector_store().is_available`,
false also covering the exception path). -/
def maybeAddVectorSearch (strategy : SearchStrategy) (intent : Option String)
    (entities : List String) (user_query : String) (storeAvailable : Bool) :
    SearchStrategy :=
  if !storeAvailable then strategy
  else
    let vector_query :=
      if user_query != "" then user_query else String.intercalate " " entities
    if intent == some "expansion" then
      { strategy with retrieval_type := "vector_first", vector_query := some vector_query }
    else if strategy.retrieval_type == "none"
        || (strategy.retrieval_type == "graph_only" && !(truthy strategy.cypher_template)) then
      { strategy with retrieval_type := "vector_first", vector_query := some vector_query }
    else if (intent == some "lookup" || intent == some "path")
        && truthy strategy.cypher_template then
      { strategy with retrieval_type := "hybrid", vector_query := some vector_query }
    else strategy

/-- Result of `plan_search`: either the missing-intent error path (which sets
`error = "No intent classified"` and leaves the strategy unset) or the
planned strategy written to the state. -/
inductive PlanResult where
  | noIntent
  | planned (strategy : SearchStrategy)
deriving DecidableEq

/-- `plan_search`: select a strategy from intent and entities, then apply the
vector-search augmentation. -/
def planSearch (intent : Option String) (entities : List String)
    (user_query : String) (storeAvailable : Bool) : PlanResult :=
  if !(truthy intent) then .noIntent
  else
    let strategy :=
      if intent == some "lookup" then planLookup entities
      else if intent == some "path" then planPath entities
      else if intent == some "comparison" then planComparison entities
      else if intent == some "expansion" then
        { retrieval_type := "none",
          message := some "This query requires web search, which will be implemented in Phase 3." }
      else
        { retrieval_type := "none",
          error := some ("Unknown intent: " ++ intent.getD "") }
    .planned (maybeAddVectorSearch strategy intent entities user_query storeAvailable)

/-- `_should_web_search` (src/agents/graph.py): route to the web-search node
when intent is expansion or when both result lists are empty. -/
def shouldWebSearch (intent : Option String) (kg : List KGRecord)
    (vec : List VHit) : String :=
  let hasResults := !kg.isEmpty || !vec.isEmpty
  if intent == some "expansion" || !hasResults then "web_search" else "synthesize"

/-- Whether the `web_search` node reaches the external Tavily call: it skips
only when results already exist (and intent is not expansion) or when the API
key is missing. -/
def webSearchIssuesCall (intent : Option String) (kg : List KGRecord)
    (vec : List VHit) (apiKeySet : Bool) : Bool :=
  let hasResults := !kg.isEmpty || !vec.isEmpty
  if hasResults && intent != some "expansion" then false
  else apiKeySet

/-- Whether `retrieve_from_graph` issues a query against Neo4j: never for
`retrieval_type = none`; for template-less `vector_first` it runs the
enrichment query exactly when the external vector store returned hits;
otherwise it runs the Cypher template when one is present. -/
def retrieverGraphQueried (strategy : SearchStrategy)
    (vectorHits : List VHit) : Bool :=
  if strategy.retrieval_type == "none" then false
  else if strategy.retrieval_type == "vector_first" && !(truthy strategy.cypher_template) then
    !vectorHits.isEmpty
  else truthy strategy.cypher_template

/-! ## Web-result persistence (src/agents/nodes/web_search.py,
`_persist_web_results`)

The ChromaDB collection is modelled as an association list from entry id to
entry; `upsert` replaces entries whose id already exists and appends the
rest.  The MD5 url digest and the embedding client are parameters. -/

/-- A persisted ChromaDB entry: document text, the metadata written by the
web expander, and the embedding. -/
structure StoreEntry where
  text : String
  source_type : String
  source_id : String
  source_url : String
  collected_at : String
  collector : String
  node_id : String
  node_label : String
  title : String
  chunk_index : ℕ
  total_chunks : ℕ
  search_query : String
  embedding : List ℚ
deriving DecidableEq

/-- Upsert of a single id into the store. -/
def upsertOne (store : List (String × StoreEntry)) (id : String)
    (e : StoreEntry) : List (String × StoreEntry) :=
  if store.any (fun p => p.1 == id) then
    store.map (fun p => if p.1 == id then (id, e) else p)
  else store ++ [(id, e)]

/-- Upsert of a batch (ids processed in order, as ChromaDB does). -/
def upsert (store : List (String × StoreEntry))
    (items : List (String × StoreEntry)) : List (String × StoreEntry) :=
  items.foldl (fun s ie => upsertOne s ie.1 ie.2) store

/-- The id/entry batch built by `_persist_web_results`: one entry per result
with truthy url and content, id `web:{md5(url)[:12]}:{i}` where `i` is the
position in this result list. -/
def mkWebItems (urlHash : String → String) (embed : String → List ℚ)
    (now query : String) (results : List WebResult) :
    List (String × StoreEntry) :=
  results.enum.filterMap fun ir =>
    let i := ir.1
    let r := ir.2
    if r.url == "" || r.content == "" then none
    else
      let uh := urlHash r.url
      let entry_id := "web:" ++ uh ++ ":" ++ toString i
      let text :=
        if r.title != "" then "[Web] " ++ r.title ++ "\n" ++ r.content else r.content
      some (entry_id,
        { text := text, source_type := "web_search", source_id := uh,
          source_url := r.url, collected_at := now,
          collector := "web_search_expander", node_id := "", node_label := "",
          title := if r.title != "" then r.title else r.url, chunk_index := i,
          total_chunks := results.length, search_query := query,
          embedding := embed text })

/-- `_persist_web_results` on the embedder-available path (`urlHash` is the
12-hex-digit MD5 prefix, `embed` the embedding client, `now` the timestamp). -/
def persistWebResults (urlHash : String → String) (embed : String → List ℚ)
    (now query : String) (store : List (String × StoreEntry))
    (results : List WebResult) : List (String × StoreEntry) :=
  if results.isEmpty then store
  else
    let items := mkWebItems urlHash embed now query results
    if items.isEmpty then store else upsert store items

/-! ## Critic scorer (src/critic/scorer.py, `calculate_composite_score`) -/

/-- An evaluation criterion (src/critic/criteria.py). -/
structure EvaluationCriterion where
  id : String
  name : String
  principle_id : String
  agent_target : String
  description : String
  weight : ℚ
  scoring_rubric : String
  version : String
  is_active : Bool
deriving DecidableEq

/-- The accumulation loop of `calculate_composite_score`: for criteria whose
id is present in the score dict, `(weighted_sum, total_weight)`. -/
def compositeAux (scores : List (String × ℚ)) : List EvaluationCriterion → ℚ × ℚ
  | [] => (0, 0)
  | c :: rest =>
    let p := compositeAux scores rest
    match scores.lookup c.id with
    | some s => (p.1 + s * c.weight, p.2 + c.weight)
    | none => p

/-- `calculate_composite_score`: weighted mean of the scores present for the
given criteria; 0 when the dict or the criteria list is empty or no weight
accumulates. -/
def calculateCompositeScore (scores : List (String × ℚ))
    (criteria : List EvaluationCriterion) : ℚ :=
  if scores.isEmpty || criteria.isEmpty then 0
  else
    let p := compositeAux scores criteria
    if p.2 == 0 then 0 else p.1 / p.2

/-! ## Failure analyzer (src/optimizer/analyzer.py)

`analyze` is embedded as a pure function of the evaluation rows returned by
`_query_low_scores` (their `scores` JSON already decoded into an association
list), the thresholds, and the `YYYY-MM` date string.  Hypothesis generation
is embedded on its deterministic no-provider path (`_fallback_hypotheses`);
the LLM path replaces only the `root_cause_hypotheses` field. -/

/-- A row returned by `_query_low_scores` with its `scores` JSON decoded. -/
structure EvalRow where
  eval_id : String
  agent_name : String
  query : String
  response : String
  scores : List (String × ℚ)
deriving DecidableEq

/-- One entry of a failure bucket in `_group_failures`. -/
structure Failure where
  eval_id : String
  query : String
  response : String
  score : ℚ
  criterion_id : String
deriving DecidableEq

/-- All `(bucket key, failure)` pairs produced by `_group_failures`, in
iteration order; the key is `f"{agent}:{criterion_id}"`. -/
def failureEntries (evals : List EvalRow) (threshold : ℚ) :
    List (String × Failure) :=
  evals.flatMap fun e =>
    e.scores.filterMap fun cs =>
      if cs.2 < threshold then
        some (e.agent_name ++ ":" ++ cs.1,
          ⟨e.eval_id, e.query, e.response, cs.2, cs.1⟩)
      else none

/-- Keys in first-occurrence order (dict insertion order of the
`defaultdict`). -/
def firstOccAux (seen : List String) : List String → List String
  | [] => []
  | k :: rest =>
    if seen.contains k then firstOccAux seen rest
    else k :: firstOccAux (k :: seen) rest

/-- The bucket of `_group_failures` for one key. -/
def bucket (evals : List EvalRow) (threshold : ℚ) (key : String) :
    List Failure :=
  (failureEntries evals threshold).filterMap fun p =>
    if p.1 == key then some p.2 else none

/-- Split at the first colon, as Python's `key.split(":", 1)`; `none` when
there is no colon (the `len(parts) != 2` guard). -/
def splitOnceAux : List Char → Option (List Char × List Char)
  | [] => none
  | c :: rest =>
    if c == ':' then some ([], rest)
    else match splitOnceAux rest with
      | some p => some (c :: p.1, p.2)
      | none => none

/-- String form of `splitOnceAux`. -/
def splitOnceColon (s : String) : Option (String × String) :=
  (splitOnceAux s.data).map fun p => (String.mk p.1, String.mk p.2)

/-- Python's `s.split(":")[-1]`. -/
def lastColonSegment (s : String) : String :=
  (s.splitOn ":").getLastD ""

/-- `_infer_pattern_type`. -/
def inferPatternType (criterion_id : String) : String :=
  let c := criterion_id.toLower
  if ["source", "citation", "grounding", "accuracy"].any (fun x => pyIn x c) then
    "output_quality"
  else if ["reasoning", "steps", "completeness"].any (fun x => pyIn x c) then
    "reasoning"
  else if ["retrieval", "query", "result", "template"].any (fun x => pyIn x c) then
    "retrieval"
  else if ["intent", "entity", "scope"].any (fun x => pyIn x c) then
    "classification"
  else "output_quality"

/-- `_fallback_hypotheses`. -/
def fallbackHypotheses (criterion_id : String) : List String :=
  let c := (lastColonSegment criterion_id).toLower
  if c == "source-citation" then
    ["Prompt may not explicitly instruct to cite KG sources",
     "Source formatting instructions may be unclear"]
  else if c == "answer-relevance" then
    ["Prompt may lack clear instruction to directly answer the question",
     "Context formatting may be confusing the model"]
  else if c == "reasoning-steps" then
    ["Prompt may not require explicit reasoning steps",
     "Chain-of-thought instruction may be missing"]
  else if c == "completeness" then
    ["Prompt may not emphasize including all relevant information",
     "Instructions for handling multiple results may be unclear"]
  else if c == "factual-accuracy" then
    ["Prompt may allow too much creative interpretation",
     "Grounding instructions may be insufficiently strong"]
  else if c == "intent-accuracy" then
    ["Intent categories may not be clearly described",
     "Examples for each intent type may be insufficient"]
  else if c == "entity-extraction" then
    ["Entity extraction instructions may be too vague",
     "Entity format examples may be missing"]
  else if c == "template-selection" then
    ["Template selection criteria may be unclear",
     "Intent-to-template mapping may need more examples"]
  else
    ["Prompt instructions may be unclear or ambiguous",
     "Examples in the prompt may be insufficient"]

/-- Two-decimal rendering of a rational, as Python's `f"{x:.2f}"`. -/
def fmt2 (q : ℚ) : String :=
  let c := roundHalfEven (q * 100)
  let n := c.natAbs
  let sign := if c < 0 then "-" else ""
  let ip := n / 100
  let fp := n % 100
  sign ++ toString ip ++ "." ++ (if fp < 10 then "0" else "") ++ toString fp

/-- A detected failure pattern (src/optimizer/models.py, `FailurePattern`;
the wall-clock `created_at` / `resolved_at` fields are not modelled). -/
structure FailurePatternR where
  id : String
  agent_name : String
  criterion_id : String
  pattern_type : String
  description : String
  frequency : ℕ
  avg_score : ℚ
  sample_queries : List String
  sample_responses : List String
  root_cause_hypotheses : List String
  suggested_fixes : List String
  status : String
deriving DecidableEq

/-- `_create_pattern` (no-provider hypothesis path; `dateStr` is the
`YYYY-MM` rendering of the wall clock). -/
def createPattern (key : String) (failures : List Failure)
    (dateStr : String) : Option FailurePatternR :=
  match splitOnceColon key with
  | none => none
  | some (agent_name, criterion_id) =>
    let scores := failures.map Failure.score
    let avg_score := scores.sum / scores.length
    let sample_queries := (failures.take 5).map Failure.query
    let sample_responses := (failures.take 5).filterMap fun f =>
      if f.response != "" then some (f.response.take 200) else none
    let pattern_type := inferPatternType criterion_id
    let description := agent_name ++ " consistently scores low on "
      ++ criterion_id ++ " (avg: " ++ fmt2 avg_score ++ ")"
    let hypotheses := fallbackHypotheses criterion_id
    let pattern_id := "fp:" ++ agent_name ++ ":"
      ++ lastColonSegment criterion_id ++ ":" ++ dateStr
    some { id := pattern_id, agent_name := agent_name,
           criterion_id := criterion_id, pattern_type := pattern_type,
           description := description, frequency := failures.length,
           avg_score := avg_score, sample_queries := sample_queries,
           sample_responses := sample_responses,
           root_cause_hypotheses := hypotheses, suggested_fixes := [],
           status := "detected" }

/-- `FailureAnalyzer.analyze`: group the low-scoring rows, and create one
pattern per `(agent, criterion)` bucket with at least `minSamples` entries.
The returned list is also exactly what step 4 persists. -/
def analyze (evals : List EvalRow) (threshold : ℚ) (minSamples : ℕ)
    (dateStr : String) : List FailurePatternR :=
  if evals.isEmpty then []
  else
    (firstOccAux [] ((failureEntries evals threshold).map Prod.fst)).filterMap
      fun key =>
        let failures := bucket evals threshold key
        if minSamples ≤ failures.length then createPattern key failures dateStr
        else none

/-! ## Prompt registry (src/optimizer/registry.py)

The Neo4j `PromptVersion` nodes and the `{prompts_dir}` files are the state;
Cypher `MERGE ... SET` is keyed on `id`.  The SHA256 digest
(`_hash_content`) is the parameter `hashFn`; the wall-clock `created_at` /
`approved_at` timestamps are not modelled. -/

/-- A `PromptVersion` node as the registry persists it. -/
structure PV where
  id : String
  agent_name : String
  version : String
  prompt_content : String
  prompt_hash : String
  prompt_path : String
  is_active : Bool
  user_approved : Bool
  parent_version : Option String
  failure_pattern_id : Option String
  performance_delta : ℚ
  test_results : Option String
  rationale : String
  approved_by : Option String
deriving DecidableEq

/-- Registry state: the `PromptVersion` nodes and the prompt files
(path relative to `prompts_dir` → content). -/
structure RegistryState where
  nodes : List PV
  files : List (String × String)
deriving DecidableEq

/-- The empty registry. -/
def initRegistry : RegistryState := ⟨[], []⟩

/-- Overwrite-or-create a file (`Path.write_text`). -/
def writeFile (fs : List (String × String)) (path content : String) :
    List (String × String) :=
  if fs.any (fun p => p.1 == path) then
    fs.map (fun p => if p.1 == path then (path, content) else p)
  else fs ++ [(path, content)]

/-- Read a file if it exists. -/
def readFile (fs : List (String × String)) (path : String) : Option String :=
  (fs.find? (fun p => p.1 == path)).map Prod.snd

/-- Cypher `MERGE (pv:PromptVersion {id}) SET ...` of `create_version`: all
fields listed in the SET clause are overwritten; `approved_by` (and the
approval timestamp) are not in the SET list, so they survive a re-merge. -/
def mergeNode (nodes : List PV) (pv : PV) : List PV :=
  if nodes.any (fun n => n.id == pv.id) then
    nodes.map (fun n =>
      if n.id == pv.id then { pv with approved_by := n.approved_by } else n)
  else nodes ++ [pv]

/-- `get_current_version`: the active `PromptVersion` node for an agent. -/
def getCurrentVersion (s : RegistryState) (agent : String) : Option PV :=
  s.nodes.find? (fun pv => pv.agent_name == agent && pv.is_active)

/-- Digits-to-number helper for `_parse_version`. -/
def digitsToNat (ds : List Char) : ℕ :=
  ds.foldl (fun n c => n * 10 + (c.toNat - '0'.toNat)) 0

/-- The regex `(\d+)\.(\d+)\.(\d+)` of `_parse_version`, anchored at the
start (`re.match`), trailing characters allowed. -/
def parseVersionChars (cs : List Char) : Option (ℕ × ℕ × ℕ) :=
  let p1 := cs.span Char.isDigit
  if p1.1.isEmpty then none
  else match p1.2 with
    | '.' :: r2 =>
      let p2 := r2.span Char.isDigit
      if p2.1.isEmpty then none
      else match p2.2 with
        | '.' :: r4 =>
          let p3 := r4.span Char.isDigit
          if p3.1.isEmpty then none
          else some (digitsToNat p1.1, digitsToNat p2.1, digitsToNat p3.1)
        | _ => none
    | _ => none

/-- `_parse_version`: `(1, 0, 0)` when the regex does not match. -/
def parseVersion (v : String) : ℕ × ℕ × ℕ :=
  (parseVersionChars v.data).getD (1, 0, 0)

/-- `_increment_version`. -/
def incrementVersion (v : String) (bump : String) : String :=
  let p := parseVersion v
  if bump == "major" then toString (p.1 + 1) ++ ".0.0"
  else if bump == "minor" then toString p.1 ++ "." ++ toString (p.2.1 + 1) ++ ".0"
  else toString p.1 ++ "." ++ toString p.2.1 ++ "." ++ toString (p.2.2 + 1)

/-- Version ids are `pv:{agent}@{semver}`. -/
def mkVersionId (agent version : String) : String :=
  "pv:" ++ agent ++ "@" ++ version

/-- `create_version`: compute the next version from the currently active one
(`1.0.0` when none), write the per-version file, and MERGE the node with
`is_active = false`.  Returns the new state and the constructed
`PromptVersion`. -/
def createVersion (hashFn : String → String) (s : RegistryState)
    (agent content rationale : String) (failure_pattern_id : Option String)
    (test_results : Option String) (parent_version : Option String)
    (performance_delta : ℚ) : RegistryState × PV :=
  let current := getCurrentVersion s agent
  let new_version := match current with
    | some c => incrementVersion c.version "patch"
    | none => "1.0.0"
  let parent := match current with
    | some c => if truthy parent_version then parent_version else some c.id
    | none => parent_version
  let version_id := mkVersionId agent new_version
  let prompt_hash := hashFn content
  let vpath := agent ++ "/v" ++ new_version ++ ".txt"
  let files1 := writeFile s.files vpath content
  let pv : PV :=
    { id := version_id, agent_name := agent, version := new_version,
      prompt_content := content, prompt_hash := prompt_hash,
      prompt_path := "prompts/" ++ vpath, is_active := false,
      user_approved := false, parent_version := parent,
      failure_pattern_id := failure_pattern_id,
      performance_delta := performance_delta, test_results := test_results,
      rationale := rationale, approved_by := none }
  (⟨mergeNode s.nodes pv, files1⟩, pv)

/-- `activate_version`: find the target, deactivate the agent's active
version, activate the target, and rewrite `{agent}/current.txt` from the
target node's content.  `false` when the target id does not exist. -/
def activateVersion (s : RegistryState) (version_id approved_by : String) :
    RegistryState × Bool :=
  match s.nodes.find? (fun n => n.id == version_id) with
  | none => (s, false)
  | some target =>
    let agent := target.agent_name
    let nodes1 := s.nodes.map fun n =>
      if n.agent_name == agent && n.is_active then { n with is_active := false }
      else n
    let nodes2 := nodes1.map fun n =>
      if n.id == version_id then
        { n with is_active := true, user_approved := true,
                 approved_by := some approved_by }
      else n
    let files1 := match nodes2.find? (fun n => n.id == version_id) with
      | some n => writeFile s.files (agent ++ "/current.txt") n.prompt_content
      | none => s.files
    (⟨nodes2, files1⟩, true)

/-- `rollback`: activate the given version, or the current version's parent. -/
def rollback (s : RegistryState) (agent : String)
    (to_version : Option String) : RegistryState × Bool :=
  if truthy to_version then activateVersion s (to_version.getD "") "rollback"
  else
    match getCurrentVersion s agent with
    | none => (s, false)
    | some c =>
      if truthy c.parent_version then
        activateVersion s (c.parent_version.getD "") "rollback"
      else (s, false)

/-- `load_prompt`: `current.txt` if present, else the active node's
content. -/
def loadPrompt (s : RegistryState) (agent : String) : Option String :=
  match readFile s.files (agent ++ "/current.txt") with
  | some c => some c
  | none => (getCurrentVersion s agent).map PV.prompt_content

/-- `initialize_from_code`: no-op when an active version exists; otherwise
create `1.0.0` and activate it. -/
def initializeFromCode (hashFn : String → String) (s : RegistryState)
    (agent content : String) : RegistryState × PV :=
  match getCurrentVersion s agent with
  | some c => (s, c)
  | none =>
    let r1 := createVersion hashFn s agent content
      "Initial version extracted from code" none none none 0
    let r2 := activateVersion r1.1 r1.2.id "initialization"
    (r2.1, { r1.2 with is_active := true, user_approved := true })

/-- A registry operation, for quantifying over operation sequences. -/
inductive RegOp where
  | create (agent content rationale : String) (fpid tr parent : Option String)
      (delta : ℚ)
  | activate (version_id approved_by : String)
  | doRollback (agent : String) (to_version : Option String)
  | initFromCode (agent content : String)

/-- Apply one registry operation (the returned value is dropped). -/
def applyOp (hashFn : String → String) (s : RegistryState) : RegOp →
    RegistryState
  | .create agent content rationale fpid tr parent delta =>
    (createVersion hashFn s agent content rationale fpid tr parent delta).1
  | .activate vid by_ => (activateVersion s vid by_).1
  | .doRollback agent tv => (rollback s agent tv).1
  | .initFromCode agent content => (initializeFromCode hashFn s agent content).1

/-- Apply a sequence of registry operations. -/
def applyOps (hashFn : String → String) (s : RegistryState)
    (ops : List RegOp) : RegistryState :=
  ops.foldl (applyOp hashFn) s

/-- Number of active versions of an agent. -/
def activeCount (s : RegistryState) (agent : String) : ℕ :=
  (s.nodes.filter (fun n => n.agent_name == agent && n.is_active)).length

/-- Node ids are pairwise distinct (maintained by MERGE-on-id). -/
def NodupIds (s : RegistryState) : Prop :=
  (s.nodes.map PV.id).Nodup

/-- The fields of a `PromptVersion` node that the spec calls immutable. -/
def projFields (n : PV) :
    String × String × String × String × Option String :=
  (n.id, n.prompt_content, n.prompt_hash, n.rationale, n.parent_version)

/-- Immutable-field view of a registry state. -/
def immutProj (s : RegistryState) :
    List (String × String × String × String × Option String) :=
  s.nodes.map projFields

/-- Single-active-version invariant together with id uniqueness. -/
def RegInv (s : RegistryState) : Prop :=
  NodupIds s ∧ ∀ a, activeCount s a ≤ 1

/-- A sample inactive `PromptVersion` node of another agent (used to
instantiate universally quantified theorems). -/
def sampleNodeB : PV :=
  { id := "pv:b@1.0.0", agent_name := "b", version := "1.0.0",
    prompt_content := "P", prompt_hash := "h", prompt_path := "prompts/b/v1.0.0.txt",
    is_active := false, user_approved := false, parent_version := none,
    failure_pattern_id := none, performance_delta := 0, test_results := none,
    rationale := "", approved_by := none }

/-- A sample registry state holding `sampleNodeB`. -/
def sampleRegState : RegistryState := ⟨[sampleNodeB], []⟩

/-- A sample synthesizer state carrying only web evidence (used to
instantiate universally quantified theorems). -/
def sampleWebState : SynthState :=
  { user_query := "q", intent := some "lookup", entities := [],
    kg_results := [], vector_results := [],
    web_results := [⟨"T", "http://u", "c", 1⟩], error := none }

/-- A sample low-scoring evaluation row (used to instantiate universally
quantified theorems). -/
def sampleEvalRow : EvalRow :=
  ⟨"e1", "synthesizer", "q", "resp", [("ec:source-citation", 0)]⟩

/-! ## Theorems: web-result persistence (C6) -/

/-- Upserting either keeps the id list (id already present) or appends. -/
theorem upsertOne_keys (store : List (String × StoreEntry)) (id : String)
    (e : StoreEntry) :
    (upsertOne store id e).map Prod.fst = store.map Prod.fst
      ∨ ((upsertOne store id e).map Prod.fst = store.map Prod.fst ++ [id]
          ∧ id ∉ store.map Prod.fst) := by
  unfold upsertOne
  by_cases h : store.any (fun p => p.1 == id) = true
  · left
    rw [if_pos h, List.map_map]
    apply List.map_congr_left
    intro p _
    simp only [Function.comp_apply]
    by_cases hp : p.1 = id
    · simp [hp]
    · simp [hp]
  · right
    rw [if_neg h]
    constructor
    · simp
    · intro hmem
      apply h
      rw [List.any_eq_true]
      obtain ⟨p, hp, hfst⟩ := List.mem_map.mp hmem
      exact ⟨p, hp, by simp [hfst]⟩

/-- Membership in the id list is preserved by a single upsert. -/
theorem mem_keys_upsertOne {store : List (String × StoreEntry)} {i : String}
    (j : String) (e : StoreEntry) (h : i ∈ store.map Prod.fst) :
    i ∈ (upsertOne store j e).map Prod.fst := by
  rcases upsertOne_keys store j e with hk | ⟨hk, _⟩ <;> rw [hk]
  · exact h
  · exact List.mem_append_left _ h

/-- The upserted id is in the resulting id list. -/
theorem self_mem_keys_upsertOne (store : List (String × StoreEntry))
    (j : String) (e : StoreEntry) :
    j ∈ (upsertOne store j e).map Prod.fst := by
  unfold upsertOne
  by_cases h : store.any (fun p => p.1 == j) = true
  · rw [if_pos h]
    rw [List.any_eq_true] at h
    obtain ⟨p, hp, hpj⟩ := h
    have hmem : (j, e) ∈ store.map
        (fun p => if p.1 == j then (j, e) else p) :=
      List.mem_map.mpr ⟨p, hp, by simp [hpj]⟩
    exact List.mem_map.mpr ⟨(j, e), hmem, rfl⟩
  · rw [if_neg h]
    simp

/-- Membership in the id list is preserved by a batch upsert. -/
theorem mem_keys_upsert {i : String} (items : List (String × StoreEntry)) :
    ∀ store : List (String × StoreEntry), i ∈ store.map Prod.fst →
      i ∈ (upsert store items).map Prod.fst := by
  induction items with
  | nil => intro store h; exact h
  | cons it rest ih =>
    intro store h
    exact ih _ (mem_keys_upsertOne it.1 it.2 h)

/-- Every upserted id ends up in the resulting id list. -/
theorem item_mem_keys_upsert {i : String} (items : List (String × StoreEntry)) :
    ∀ store : List (String × StoreEntry), i ∈ items.map Prod.fst →
      i ∈ (upsert store items).map Prod.fst := by
  induction items with
  | nil => intro store h; exact absurd h (List.not_mem_nil i)
  | cons it rest ih =>
    intro store h
    rcases List.mem_cons.mp h with hh | ht
    · exact mem_keys_upsert rest _ (hh ▸ self_mem_keys_upsertOne store it.1 it.2)
    · exact ih _ ht

/-- Upserting only already-present ids keeps the id list unchanged. -/
theorem upsert_keys_of_subset (items : List (String × StoreEntry)) :
    ∀ store : List (String × StoreEntry),
      (∀ j ∈ items.map Prod.fst, j ∈ store.map Prod.fst) →
      (upsert store items).map Prod.fst = store.map Prod.fst := by
  induction items with
  | nil => intro store _; rfl
  | cons it rest ih =>
    intro store h
    have h1 : it.1 ∈ store.map Prod.fst := h it.1 (by simp)
    have hk : (upsertOne store it.1 it.2).map Prod.fst = store.map Prod.fst := by
      rcases upsertOne_keys store it.1 it.2 with hk | ⟨_, hnm⟩
      · exact hk
      · exact absurd h1 hnm
    have := ih (upsertOne store it.1 it.2) (by
      intro j hj
      rw [hk]
      exact h j (List.mem_cons_of_mem _ hj))
    rw [upsert] at this ⊢
    rw [List.foldl_cons]
    rw [this, hk]

/-- The entry ids built by `_persist_web_results` depend only on the url
digest and the result positions, not on the timestamp, the query, or the
embeddings. -/
theorem mkWebItems_keys (urlHash : String → String)
    (embed embed' : String → List ℚ) (now now' query query' : String)
    (results : List WebResult) :
    (mkWebItems urlHash embed now query results).map Prod.fst
      = (mkWebItems urlHash embed' now' query' results).map Prod.fst := by
  unfold mkWebItems
  rw [List.map_filterMap, List.map_filterMap]
  apply List.filterMap_congr
  intro ir _
  by_cases h : ir.2.url == "" || ir.2.content == "" <;> simp [h]

/-- C6 amended: persistence is idempotent per (url, position): re-running
`_persist_web_results` with the same result list (any timestamp, any query)
creates no new store entries. -/
theorem C6_repeat_same_results_no_new_entries (urlHash : String → String)
    (embed : String → List ℚ) (now1 now2 q1 q2 : String)
    (store : List (String × StoreEntry)) (results : List WebResult) :
    (persistWebResults urlHash embed now2 q2
        (persistWebResults urlHash embed now1 q1 store results) results).map
        Prod.fst
      = (persistWebResults urlHash embed now1 q1 store results).map Prod.fst := by
  unfold persistWebResults
  by_cases hr : results.isEmpty
  · simp [hr]
  · simp only [hr, if_false, Bool.false_eq_true]
    set items1 := mkWebItems urlHash embed now1 q1 results with hi1
    set items2 := mkWebItems urlHash embed now2 q2 results with hi2
    have hkeys : items1.map Prod.fst = items2.map Prod.fst :=
      mkWebItems_keys urlHash embed embed now1 now2 q1 q2 results
    by_cases h1 : items1.isEmpty
    · have h2 : items2.isEmpty := by
        rw [List.isEmpty_iff] at h1 ⊢
        have := hkeys
        rw [h1] at this
        exact List.map_eq_nil_iff.mp this.symm
      simp [h1, h2]
    · have h2 : ¬ items2.isEmpty := by
        rw [List.isEmpty_iff] at h1 ⊢
        intro hc
        rw [hc] at hkeys
        exact h1 (List.map_eq_nil_iff.mp hkeys)
      simp only [h1, h2, if_false, Bool.false_eq_true]
      apply upsert_keys_of_subset
      intro j hj
      rw [← hkeys] at hj
      exact item_mem_keys_upsert items1 store hj

/-- C6 counterexample: the upsert id embeds the position in the result list,
so a repeat search that returns the same url at a different position creates
a second store entry for that url (ids `web:u:0` and `web:u:1` below). -/
theorem C6_same_url_new_position_duplicates :
    (let uh : String → String := fun s => s
     let em : String → List ℚ := fun _ => []
     let s1 := persistWebResults uh em "t1" "q" [] [⟨"T", "u", "c", 1⟩]
     let s2 := persistWebResults uh em "t2" "q" s1
       [⟨"T2", "u2", "c2", 1⟩, ⟨"T", "u", "c", 1⟩]
     ((s1.filter (fun p => p.2.source_url == "u")).length = 1
       ∧ (s2.filter (fun p => p.2.source_url == "u")).length = 2)) := by
  decide

/-! ## Theorems: prompt registry (C2, C3, C4, C5) -/

/-- Writing a file and reading it back at the same path yields the written
content. -/
theorem readFile_writeFile (fs : List (String × String)) (p c : String) :
    readFile (writeFile fs p c) p = some c := by
  unfold readFile writeFile
  by_cases h : fs.any (fun q => q.1 == p) = true
  · rw [if_pos h]
    rw [List.find?_map]
    have hpred : ((fun q : String × String => q.1 == p) ∘
        fun q => if q.1 == p then (p, c) else q) = fun q => q.1 == p := by
      funext q
      by_cases hq : q.1 = p <;> simp [Function.comp, hq]
    rw [hpred]
    have hs : (fs.find? (fun q => q.1 == p)).isSome := by
      rw [List.find?_isSome]
      obtain ⟨x, hx, hpx⟩ := List.any_eq_true.mp h
      exact ⟨x, hx, hpx⟩
    obtain ⟨q0, hq0⟩ := Option.isSome_iff_exists.mp hs
    have hq0p : (q0.1 == p) = true := by
      have hx := List.find?_some hq0
      exact hx
    rw [hq0]
    have hq : q0.1 = p := eq_of_beq hq0p
    simp [hq]
  · rw [if_neg h]
    rw [List.find?_append]
    have h1 : fs.find? (fun q => q.1 == p) = none := by
      rw [List.find?_eq_none]
      intro x hx hc
      exact h (List.any_eq_true.mpr ⟨x, hx, hc⟩)
    rw [h1]
    simp

/-- After a MERGE on `pv.id`, looking the id up finds the merged node, which
agrees with `pv` on everything except possibly `approved_by`. -/
theorem find?_mergeNode (nodes : List PV) (pv : PV) :
    ∃ a, (mergeNode nodes pv).find? (fun n => n.id == pv.id)
      = some { pv with approved_by := a } := by
  unfold mergeNode
  by_cases h : nodes.any (fun n => n.id == pv.id) = true
  · rw [if_pos h]
    rw [List.find?_map]
    have hpred : ((fun n : PV => n.id == pv.id) ∘ fun n =>
        if n.id == pv.id then { pv with approved_by := n.approved_by } else n)
        = fun n => n.id == pv.id := by
      funext n
      by_cases hn : n.id = pv.id <;> simp [Function.comp, hn]
    rw [hpred]
    have hs : (nodes.find? (fun n => n.id == pv.id)).isSome := by
      rw [List.find?_isSome]
      obtain ⟨x, hx, hpx⟩ := List.any_eq_true.mp h
      exact ⟨x, hx, hpx⟩
    obtain ⟨m0, hm0⟩ := Option.isSome_iff_exists.mp hs
    have hid : (m0.id == pv.id) = true := by
      have hx := List.find?_some hm0
      exact hx
    refine ⟨m0.approved_by, ?_⟩
    rw [hm0]
    simp [hid]
    intro hc
    exact absurd (eq_of_beq hid) hc
  · rw [if_neg h]
    rw [List.find?_append]
    have h1 : nodes.find? (fun n => n.id == pv.id) = none := by
      rw [List.find?_eq_none]
      intro x hx hc
      exact h (List.any_eq_true.mpr ⟨x, hx, hc⟩)
    rw [h1]
    exact ⟨pv.approved_by, by simp⟩

/-- A node of the merged list whose id differs from the merged id was
already in the list, unchanged. -/
theorem mem_of_mem_mergeNode {nodes : List PV} {pv n : PV}
    (hn : n ∈ mergeNode nodes pv) (hne : n.id ≠ pv.id) : n ∈ nodes := by
  unfold mergeNode at hn
  by_cases h : nodes.any (fun m => m.id == pv.id) = true
  · rw [if_pos h] at hn
    obtain ⟨m, hm, hfm⟩ := List.mem_map.mp hn
    by_cases hmid : (m.id == pv.id) = true
    · rw [if_pos hmid] at hfm
      exact absurd (by rw [← hfm]) hne
    · rw [if_neg hmid] at hfm
      exact hfm ▸ hm
  · rw [if_neg h] at hn
    rcases List.mem_append.mp hn with h1 | h2
    · exact h1
    · exact absurd (by rw [List.mem_singleton.mp h2]) hne

/-- Activation changes only the activity flags and approval metadata: the
immutable-field view of the state is untouched. -/
theorem immutProj_activateVersion (s : RegistryState) (vid ab : String) :
    immutProj (activateVersion s vid ab).1 = immutProj s := by
  unfold activateVersion
  cases hf : s.nodes.find? (fun n => n.id == vid) with
  | none => rfl
  | some target =>
    unfold immutProj
    simp only [List.map_map]
    apply List.map_congr_left
    intro n _
    simp only [Function.comp_apply]
    by_cases h1 : (n.agent_name == target.agent_name && n.is_active) = true <;>
      by_cases h2 : (n.id == vid) = true <;>
        simp [h1, h2, projFields]

/-- Rollback changes only the activity flags and approval metadata. -/
theorem immutProj_rollback (s : RegistryState) (agent : String)
    (tv : Option String) : immutProj (rollback s agent tv).1 = immutProj s := by
  unfold rollback
  by_cases htv : truthy tv = true
  · rw [if_pos htv]
    exact immutProj_activateVersion s (tv.getD "") "rollback"
  · rw [if_neg htv]
    cases hc : getCurrentVersion s agent with
    | none => rfl
    | some c =>
      by_cases hp : truthy c.parent_version = true
      · simp only [hp, if_true]
        exact immutProj_activateVersion s (c.parent_version.getD "") "rollback"
      · simp only [hp]
        rfl

/-- C4 amended: prompt versions are immutable under activation and rollback,
and a `create_version` call leaves every record other than the one at its own
computed version id untouched; only a second `create_version` that computes
the same version id (same agent while the active version is unchanged)
overwrites a record, as `C4_later_create_overwrites_record` exhibits. -/
theorem C4_immutable_outside_same_id_create :
    (∀ s : RegistryState, ∀ vid ab : String,
        immutProj (activateVersion s vid ab).1 = immutProj s)
    ∧ (∀ s : RegistryState, ∀ agent : String, ∀ tv : Option String,
        immutProj (rollback s agent tv).1 = immutProj s)
    ∧ (∀ hashFn : String → String, ∀ s : RegistryState,
        ∀ agent content r : String, ∀ fp tr pr : Option String, ∀ d : ℚ,
        ∀ n : PV,
        n ∈ (createVersion hashFn s agent content r fp tr pr d).1.nodes →
        n.id ≠ (createVersion hashFn s agent content r fp tr pr d).2.id →
        n ∈ s.nodes) := by
  refine ⟨immutProj_activateVersion, immutProj_rollback, ?_⟩
  intro hashFn s agent content r fp tr pr d n hn hne
  exact mem_of_mem_mergeNode hn hne

/-- C4 witness: concrete instantiation of the amended immutability theorem
(activation preserves the immutable fields of a one-node state, and a create
for a different agent leaves the other agent's node in place). -/
theorem C4_immutable_outside_same_id_create_witness :
    immutProj (activateVersion sampleRegState "pv:b@1.0.0" "u").1
        = immutProj sampleRegState
    ∧ sampleNodeB ∈ sampleRegState.nodes := by
  refine ⟨C4_immutable_outside_same_id_create.1 sampleRegState "pv:b@1.0.0" "u", ?_⟩
  exact C4_immutable_outside_same_id_create.2.2 (fun s => s) sampleRegState
    "a" "X" "r" none none none 0 sampleNodeB (by decide) (by decide)

/-- C4 counterexample: two `create_version` calls with no activation in
between compute the same version id, so the second call overwrites the
first record's content and rationale — created versions are not immutable
against later `create_version` calls. -/
theorem C4_later_create_overwrites_record :
    (let h : String → String := fun s => String.append "sha" s
     let r1 := createVersion h initRegistry "a" "A" "first" none none none 0
     let r2 := createVersion h r1.1 "a" "B" "second" none none none 0
     (r1.1.nodes.map fun n => (n.id, n.prompt_content, n.rationale))
         = [("pv:a@1.0.0", "A", "first")]
       ∧ (r2.1.nodes.map fun n => (n.id, n.prompt_content, n.rationale))
         = [("pv:a@1.0.0", "B", "second")]) := by
  decide

/-- C3 counterexample: create content `X`, activate it, create content `X`
again — the registry ends with two coexisting version records with
identical content and no failure, refuting content-idempotent creation. -/
theorem C3_duplicate_content_coexists :
    (let h : String → String := fun s => String.append "sha" s
     let r1 := createVersion h initRegistry "a" "X" "r" none none none 0
     let r2 := activateVersion r1.1 r1.2.id "user"
     let r3 := createVersion h r2.1 "a" "X" "improve" none none none 0
     r2.2 = true
       ∧ (r3.1.nodes.map fun n => (n.id, n.prompt_content))
         = [("pv:a@1.0.0", "X"), ("pv:a@1.0.1", "X")]) := by
  decide

/-- C3 amended: creation is idempotent on the computed version id, not on
content: while no version has been activated, repeated `create_version`
calls for an agent all MERGE into the single id `pv:{agent}@1.0.0`, so no
second record appears. -/
theorem C3_create_idempotent_before_activation (hashFn : String → String)
    (agent C r1 r2 : String) (fp1 fp2 tr1 tr2 pr1 pr2 : Option String)
    (d1 d2 : ℚ) :
    ((createVersion hashFn
        (createVersion hashFn initRegistry agent C r1 fp1 tr1 pr1 d1).1
        agent C r2 fp2 tr2 pr2 d2).1.nodes.map
        fun n => (n.id, n.prompt_content))
      = [(mkVersionId agent "1.0.0", C)] := by
  simp [createVersion, getCurrentVersion, initRegistry, mergeNode, writeFile,
    mkVersionId, List.find?_cons]

/-- Searching by id commutes with mapping an id-preserving function. -/
theorem find?_id_map (f : PV → PV) (hf : ∀ n, (f n).id = n.id)
    (l : List PV) (vid : String) :
    (l.map f).find? (fun n => n.id == vid)
      = (l.find? (fun n => n.id == vid)).map f := by
  rw [List.find?_map]
  have hpred : ((fun n : PV => n.id == vid) ∘ f) = fun n => n.id == vid := by
    funext n
    simp [Function.comp, hf n]
  rw [hpred]

/-- The file written by a successful activation: `current.txt` of the found
node's agent, holding the found node's content. -/
theorem activateVersion_files (s : RegistryState) (vid ab : String) (t : PV)
    (hf : s.nodes.find? (fun n => n.id == vid) = some t) :
    (activateVersion s vid ab).1.files
      = writeFile s.files (t.agent_name ++ "/current.txt") t.prompt_content := by
  unfold activateVersion
  rw [hf]
  dsimp only
  rw [find?_id_map _ (fun n => by split <;> rfl),
      find?_id_map _ (fun n => by split <;> rfl), hf]
  dsimp only [Option.map]
  congr 1
  split <;> split <;> rfl

/-- C5: creating a version with content `C` and then activating the returned
version id makes `load_prompt(agent)` return exactly `C` (the activation
rewrites `current.txt` from the stored node). -/
theorem C5_create_activate_load_roundtrip (hashFn : String → String)
    (s : RegistryState) (agent C r ab : String) (fp tr pr : Option String)
    (d : ℚ) :
    loadPrompt
        ((activateVersion (createVersion hashFn s agent C r fp tr pr d).1
          (createVersion hashFn s agent C r fp tr pr d).2.id ab).1) agent
      = some C := by
  obtain ⟨a, hfind⟩ :=
    find?_mergeNode s.nodes (createVersion hashFn s agent C r fp tr pr d).2
  have hfiles := activateVersion_files
    (createVersion hashFn s agent C r fp tr pr d).1
    (createVersion hashFn s agent C r fp tr pr d).2.id ab
    { (createVersion hashFn s agent C r fp tr pr d).2 with approved_by := a }
    hfind
  unfold loadPrompt
  rw [hfiles]
  rw [show ({ (createVersion hashFn s agent C r fp tr pr d).2 with
      approved_by := a } : PV).agent_name = agent from rfl]
  rw [readFile_writeFile]
  rfl

/-- Counting form of `activeCount`. -/
theorem activeCount_eq (s : RegistryState) (a : String) :
    activeCount s a
      = s.nodes.countP (fun n => n.agent_name == a && n.is_active) := by
  rw [activeCount, List.countP_eq_length_filter]

/-- MERGE either keeps the id list or appends the fresh id. -/
theorem mergeNode_ids (nodes : List PV) (pv : PV) :
    (mergeNode nodes pv).map PV.id = nodes.map PV.id
      ∨ ((mergeNode nodes pv).map PV.id = nodes.map PV.id ++ [pv.id]
          ∧ pv.id ∉ nodes.map PV.id) := by
  unfold mergeNode
  by_cases h : nodes.any (fun n => n.id == pv.id) = true
  · left
    rw [if_pos h, List.map_map]
    apply List.map_congr_left
    intro n _
    simp only [Function.comp_apply]
    by_cases hn : (n.id == pv.id) = true
    · rw [if_pos hn]
      exact (eq_of_beq hn).symm
    · rw [if_neg hn]
  · right
    rw [if_neg h]
    refine ⟨by simp, ?_⟩
    intro hmem
    apply h
    obtain ⟨n, hn, hid⟩ := List.mem_map.mp hmem
    exact List.any_eq_true.mpr ⟨n, hn, by simp [hid]⟩

/-- MERGE preserves id uniqueness. -/
theorem nodupIds_mergeNode {nodes : List PV} {pv : PV}
    (h : (nodes.map PV.id).Nodup) :
    ((mergeNode nodes pv).map PV.id).Nodup := by
  rcases mergeNode_ids nodes pv with hk | ⟨hk, hnm⟩ <;> rw [hk]
  · exact h
  · rw [List.nodup_append]
    exact ⟨h, List.nodup_singleton _, by
      intro x hx hx1
      rw [List.mem_singleton] at hx1
      exact hnm (hx1 ▸ hx)⟩

/-- Merging an inactive node never increases an agent's active count. -/
theorem countP_act_mergeNode_le (nodes : List PV) (pv : PV) (a : String)
    (hpv : pv.is_active = false) :
    (mergeNode nodes pv).countP (fun n => n.agent_name == a && n.is_active)
      ≤ nodes.countP (fun n => n.agent_name == a && n.is_active) := by
  unfold mergeNode
  by_cases h : nodes.any (fun n => n.id == pv.id) = true
  · rw [if_pos h, List.countP_map]
    apply List.countP_mono_left
    intro n _ hp
    simp only [Function.comp_apply] at hp
    by_cases hn : (n.id == pv.id) = true
    · rw [if_pos hn] at hp
      simp [hpv] at hp
    · rw [if_neg hn] at hp
      exact hp
  · rw [if_neg h, List.countP_append]
    simp [hpv]

/-- `create_version` preserves the registry invariant (the merged node is
inactive). -/
theorem regInv_createVersion (hashFn : String → String) (s : RegistryState)
    (agent content r : String) (fp tr pr : Option String) (d : ℚ)
    (h : RegInv s) :
    RegInv (createVersion hashFn s agent content r fp tr pr d).1 := by
  obtain ⟨hnd, hcnt⟩ := h
  constructor
  · exact nodupIds_mergeNode hnd
  · intro a
    rw [activeCount_eq]
    calc (createVersion hashFn s agent content r fp tr pr d).1.nodes.countP
          (fun n => n.agent_name == a && n.is_active)
        ≤ s.nodes.countP (fun n => n.agent_name == a && n.is_active) :=
          countP_act_mergeNode_le s.nodes _ a rfl
      _ = activeCount s a := (activeCount_eq s a).symm
      _ ≤ 1 := hcnt a

/-- Ids as the first component of the immutable-field view. -/
theorem map_id_eq_immutProj_fst (st : RegistryState) :
    st.nodes.map PV.id = (immutProj st).map Prod.fst := by
  rw [immutProj, List.map_map]
  rfl

/-- Activation does not change the id list, so it preserves id uniqueness. -/
theorem nodupIds_activateVersion (s : RegistryState) (vid ab : String)
    (h : NodupIds s) : NodupIds (activateVersion s vid ab).1 := by
  unfold NodupIds
  rw [map_id_eq_immutProj_fst, immutProj_activateVersion,
    ← map_id_eq_immutProj_fst]
  exact h

/-- `activate_version` preserves the registry invariant: it deactivates the
agent's active versions and reactivates only the unique node with the target
id. -/
theorem regInv_activateVersion (s : RegistryState) (vid ab : String)
    (h : RegInv s) : RegInv (activateVersion s vid ab).1 := by
  obtain ⟨hnd, hcnt⟩ := h
  refine ⟨nodupIds_activateVersion s vid ab hnd, ?_⟩
  intro a
  unfold activateVersion
  cases hf : s.nodes.find? (fun n => n.id == vid) with
  | none => exact hcnt a
  | some t =>
    have ht : t ∈ s.nodes := List.mem_of_find?_eq_some hf
    have htid : t.id = vid := by
      have hx := List.find?_some hf
      exact eq_of_beq hx
    have huniq : ∀ n ∈ s.nodes, n.id = vid → n = t := by
      intro n hn hid
      exact List.inj_on_of_nodup_map hnd hn ht (by rw [hid, htid])
    rw [activeCount_eq]
    dsimp only
    rw [List.countP_map, List.countP_map]
    by_cases hA : a = t.agent_name
    · subst hA
      calc s.nodes.countP _
          ≤ s.nodes.countP (fun n => n.id == vid) := by
            apply List.countP_mono_left
            intro n _ hp
            simp only [Function.comp_apply] at hp
            by_cases hn2 : (n.id == vid) = true
            · exact hn2
            · exfalso
              by_cases hn1 : (n.agent_name == t.agent_name && n.is_active)
                  = true
              · rw [if_pos hn1] at hp
                have : (({ n with is_active := false } : PV).id == vid)
                    = false := by
                  simpa using hn2
                rw [if_neg (by simp [this])] at hp
                simp at hp
              · rw [if_neg hn1] at hp
                rw [if_neg (by simpa using hn2)] at hp
                exact hn1 hp
        _ ≤ 1 := by
            have hcount : s.nodes.countP (fun n => n.id == vid)
                = (s.nodes.map PV.id).count vid := by
              rw [List.count_eq_countP, List.countP_map]
              rfl
            rw [hcount]
            exact List.nodup_iff_count_le_one.mp hnd vid
    · calc s.nodes.countP _
          ≤ s.nodes.countP (fun n => n.agent_name == a && n.is_active) := by
            apply List.countP_mono_left
            intro n hn hp
            simp only [Function.comp_apply] at hp
            by_cases hn1 : (n.agent_name == t.agent_name && n.is_active)
                = true
            · rw [if_pos hn1] at hp
              by_cases hn2 : (({ n with is_active := false } : PV).id == vid)
                  = true
              · rw [if_pos hn2] at hp
                have : n = t := huniq n hn (by simpa using hn2)
                simp [this] at hp
                exact absurd hp.symm hA
              · rw [if_neg hn2] at hp
                simp at hp
            · rw [if_neg hn1] at hp
              by_cases hn2 : (n.id == vid) = true
              · rw [if_pos hn2] at hp
                have : n = t := huniq n hn (eq_of_beq hn2)
                simp [this] at hp
                exact absurd hp.symm hA
              · rw [if_neg hn2] at hp
                exact hp
        _ = activeCount s a := (activeCount_eq s a).symm
        _ ≤ 1 := hcnt a

/-- `rollback` preserves the registry invariant. -/
theorem regInv_rollback (s : RegistryState) (agent : String)
    (tv : Option String) (h : RegInv s) : RegInv (rollback s agent tv).1 := by
  unfold rollback
  by_cases htv : truthy tv = true
  · rw [if_pos htv]
    exact regInv_activateVersion s (tv.getD "") "rollback" h
  · rw [if_neg htv]
    cases getCurrentVersion s agent with
    | none => exact h
    | some c =>
      by_cases hp : truthy c.parent_version = true
      · simp only [hp, if_true]
        exact regInv_activateVersion s (c.parent_version.getD "") "rollback" h
      · simp only [hp]
        exact h

/-- `initialize_from_code` preserves the registry invariant. -/
theorem regInv_initializeFromCode (hashFn : String → String)
    (s : RegistryState) (agent content : String) (h : RegInv s) :
    RegInv (initializeFromCode hashFn s agent content).1 := by
  unfold initializeFromCode
  cases getCurrentVersion s agent with
  | some c => exact h
  | none =>
    exact regInv_activateVersion _ _ _
      (regInv_createVersion hashFn s agent content
        "Initial version extracted from code" none none none 0 h)

/-- Every registry operation preserves the invariant. -/
theorem regInv_applyOp (hashFn : String → String) (s : RegistryState)
    (op : RegOp) (h : RegInv s) : RegInv (applyOp hashFn s op) := by
  cases op with
  | create agent content rationale fpid tr parent delta =>
    exact regInv_createVersion hashFn s agent content rationale fpid tr
      parent delta h
  | activate vid by_ => exact regInv_activateVersion s vid by_ h
  | doRollback agent tv => exact regInv_rollback s agent tv h
  | initFromCode agent content =>
    exact regInv_initializeFromCode hashFn s agent content h

/-- The invariant holds along any operation sequence. -/
theorem regInv_applyOps (hashFn : String → String) (ops : List RegOp) :
    ∀ s : RegistryState, RegInv s → RegInv (applyOps hashFn s ops) := by
  induction ops with
  | nil => intro s h; exact h
  | cons op rest ih =>
    intro s h
    exact ih (applyOp hashFn s op) (regInv_applyOp hashFn s op h)

/-- The empty registry satisfies the invariant. -/
theorem regInv_init : RegInv initRegistry := by
  constructor
  · exact List.nodup_nil
  · intro a
    exact Nat.zero_le 1

/-- C2: after any sequence of registry operations (create, activate,
rollback, initialize-from-code) from the empty registry, every agent has at
most one active `PromptVersion`. -/
theorem C2_single_active_version (hashFn : String → String)
    (ops : List RegOp) (agent : String) :
    activeCount (applyOps hashFn initRegistry ops) agent ≤ 1 :=
  (regInv_applyOps hashFn ops initRegistry regInv_init).2 agent

/-! ## Theorems: synthesizer confidence and fallbacks (C7, C10) and the
out-of-scope route (C1) -/

/-- The entity-match accumulator never decreases below its start value. -/
theorem entityMatched_foldl_ge (ids names : List String) :
    ∀ (es : List String) (acc : ℚ),
      acc ≤ es.foldl
        (fun acc e =>
          let el := e.toLower
          if ids.contains el || names.contains el then acc + 1
          else if ids.any (fun fid => pyIn el fid) then acc + 1/2
          else if names.any (fun fn => pyIn el fn) then acc + 1/2
          else acc) acc := by
  intro es
  induction es with
  | nil => intro acc; exact le_refl acc
  | cons e rest ih =>
    intro acc
    rw [List.foldl_cons]
    refine le_trans ?_ (ih _)
    dsimp only
    split_ifs <;> linarith

/-- The entity-match dimension lies in [0, 1]. -/
theorem calcEntityMatchScore_bounds (entities : List String)
    (kg : List KGRecord) (vec : List VHit) :
    0 ≤ calcEntityMatchScore entities kg vec
      ∧ calcEntityMatchScore entities kg vec ≤ 1 := by
  unfold calcEntityMatchScore
  split_ifs with he
  · norm_num
  · constructor
    · apply le_min _ zero_le_one
      apply div_nonneg
      · exact entityMatched_foldl_ge _ _ entities 0
      · positivity
    · exact min_le_right _ _

/-- The intent-fulfillment dimension lies in [0, 1]. -/
theorem calcIntentFulfillmentScore_bounds (intent : Option String)
    (kg : List KGRecord) (vec : List VHit) (web : List WebResult) :
    0 ≤ calcIntentFulfillmentScore intent kg vec web
      ∧ calcIntentFulfillmentScore intent kg vec web ≤ 1 := by
  unfold calcIntentFulfillmentScore
  dsimp only
  constructor <;> split_ifs <;> norm_num

/-- Each node contributes at most three filled key fields. -/
theorem filledCount_le_three (ps : Props) : filledCount ps ≤ 3 := by
  unfold filledCount
  split_ifs <;> norm_num

/-- The completeness dimension lies in [0, 1]. -/
theorem calcCompletenessScore_bounds (kg : List KGRecord) :
    0 ≤ calcCompletenessScore kg ∧ calcCompletenessScore kg ≤ 1 := by
  unfold calcCompletenessScore
  dsimp only
  split_ifs with he ht
  · norm_num
  · norm_num
  · have htot : 3 * (recordProps kg).length ≠ 0 := by
      simpa using ht
    have hsum : ((recordProps kg).map filledCount).sum
        ≤ 3 * (recordProps kg).length := by
      have h1 := List.sum_le_card_nsmul ((recordProps kg).map filledCount) 3
        (by
          intro x hx
          obtain ⟨ps, _, rfl⟩ := List.mem_map.mp hx
          exact filledCount_le_three ps)
      rw [List.length_map, smul_eq_mul] at h1
      omega
    have hpos : (0 : ℚ) < (3 * (recordProps kg).length : ℕ) := by
      exact_mod_cast Nat.pos_of_ne_zero htot
    constructor
    · apply div_nonneg _ (le_of_lt hpos)
      positivity
    · rw [div_le_one hpos]
      exact_mod_cast hsum

/-- The vector-similarity dimension lies in [0, 1] whenever every hit's
score does. -/
theorem calcVectorSimilarityScore_bounds (vec : List VHit)
    (h : ∀ v ∈ vec, 0 ≤ v.score ∧ v.score ≤ 1) :
    0 ≤ calcVectorSimilarityScore vec ∧ calcVectorSimilarityScore vec ≤ 1 := by
  unfold calcVectorSimilarityScore
  dsimp only
  by_cases he : vec.isEmpty = true
  · rw [if_pos he]; norm_num
  · rw [if_neg he]
    by_cases hs : ((vec.map VHit.score).filter (fun s => s != 0)).isEmpty = true
    · rw [if_pos hs]; norm_num
    · rw [if_neg hs]
      have hmem : ∀ x ∈ (vec.map VHit.score).filter (fun s => s != 0),
          0 ≤ x ∧ x ≤ 1 := by
        intro x hx
        have hx2 := List.mem_of_mem_filter hx
        obtain ⟨v, hv, rfl⟩ := List.mem_map.mp hx2
        exact h v hv
      have hne : (vec.map VHit.score).filter (fun s => s != 0) ≠ [] := by
        intro hc
        rw [hc] at hs
        exact hs rfl
      have hlen : 0 < ((vec.map VHit.score).filter (fun s => s != 0)).length :=
        List.length_pos.mpr hne
      have hlenq : (0 : ℚ)
          < (((vec.map VHit.score).filter (fun s => s != 0)).length : ℚ) := by
        exact_mod_cast hlen
      constructor
      · apply div_nonneg _ (le_of_lt hlenq)
        exact List.sum_nonneg (fun x hx => (hmem x hx).1)
      · rw [div_le_one hlenq]
        have h1 := List.sum_le_card_nsmul
          ((vec.map VHit.score).filter (fun s => s != 0)) 1
          (fun x hx => (hmem x hx).2)
        simpa using h1

/-- The rounded value is at least zero when its argument is. -/
theorem roundHalfEven_nonneg (q : ℚ) (h : 0 ≤ q) : 0 ≤ roundHalfEven q := by
  unfold roundHalfEven
  have hn : (0 : ℤ) ≤ ⌊q⌋ := Int.le_floor.mpr (by exact_mod_cast h)
  dsimp only
  split_ifs <;> omega

/-- The rounded value never exceeds an integer bound on its argument. -/
theorem roundHalfEven_le (q : ℚ) (B : ℤ) (h : q ≤ B) : roundHalfEven q ≤ B := by
  unfold roundHalfEven
  have hfl : ⌊q⌋ ≤ B := by
    have h1 := Int.floor_le_floor h
    rwa [Int.floor_intCast] at h1
  dsimp only
  split_ifs with h1 h2 h3
  · exact hfl
  · have hlt : (⌊q⌋ : ℚ) < q := by linarith
    have hbl : ⌊q⌋ < B := by
      rcases lt_or_eq_of_le hfl with hc | hc
      · exact hc
      · exfalso
        rw [hc] at hlt
        exact absurd h (not_le.mpr hlt)
    omega
  · exact hfl
  · have heq : q - ⌊q⌋ = 1/2 := le_antisymm (not_lt.mp h2) (not_lt.mp h1)
    have hlt : (⌊q⌋ : ℚ) < q := by linarith
    have hbl : ⌊q⌋ < B := by
      rcases lt_or_eq_of_le hfl with hc | hc
      · exact hc
      · exfalso
        rw [hc] at hlt
        exact absurd h (not_le.mpr hlt)
    omega

/-- Rounding to two decimals stays within [0, 1]. -/
theorem pyRound2_bounds (q : ℚ) (h0 : 0 ≤ q) (h1 : q ≤ 1) :
    0 ≤ pyRound2 q ∧ pyRound2 q ≤ 1 := by
  unfold pyRound2
  constructor
  · apply div_nonneg _ (by norm_num)
    exact_mod_cast roundHalfEven_nonneg (q * 100) (by positivity)
  · rw [div_le_one (by norm_num)]
    have h2 := roundHalfEven_le (q * 100) 100 (by push_cast; linarith)
    exact_mod_cast h2

/-- `_calculate_confidence` stays within [0, 1] and is an integer number of
hundredths, given in-range vector-hit scores. -/
theorem calculateConfidence_bounds (kg : List KGRecord)
    (intent : Option String) (vec : List VHit) (web : List WebResult)
    (entities : List String) (h : ∀ v ∈ vec, 0 ≤ v.score ∧ v.score ≤ 1) :
    0 ≤ calculateConfidence kg intent vec web entities
      ∧ calculateConfidence kg intent vec web entities ≤ 1
      ∧ ∃ n : ℤ, calculateConfidence kg intent vec web entities
          = (n : ℚ) / 100 := by
  unfold calculateConfidence
  split_ifs with hempty
  · exact ⟨le_refl 0, by norm_num, 0, by norm_num⟩
  · obtain ⟨he0, he1⟩ := calcEntityMatchScore_bounds entities kg vec
    obtain ⟨hi0, hi1⟩ := calcIntentFulfillmentScore_bounds intent kg vec web
    obtain ⟨hc0, hc1⟩ := calcCompletenessScore_bounds kg
    obtain ⟨hv0, hv1⟩ := calcVectorSimilarityScore_bounds vec h
    have h0 : 0 ≤ calcEntityMatchScore entities kg vec * (3/10)
        + calcIntentFulfillmentScore intent kg vec web * (3/10)
        + calcCompletenessScore kg * (1/5)
        + calcVectorSimilarityScore vec * (1/5) := by linarith
    have h1 : calcEntityMatchScore entities kg vec * (3/10)
        + calcIntentFulfillmentScore intent kg vec web * (3/10)
        + calcCompletenessScore kg * (1/5)
        + calcVectorSimilarityScore vec * (1/5) ≤ 1 := by linarith
    obtain ⟨hb0, hb1⟩ := pyRound2_bounds _ h0 h1
    exact ⟨hb0, hb1, roundHalfEven ((calcEntityMatchScore entities kg vec * (3/10)
      + calcIntentFulfillmentScore intent kg vec web * (3/10)
      + calcCompletenessScore kg * (1/5)
      + calcVectorSimilarityScore vec * (1/5)) * 100), rfl⟩

/-- C7: on every branch of the synthesizer, the confidence written to the
state lies in [0, 1] and is an integer number of hundredths, given in-range
vector-hit scores. -/
theorem C7_confidence_two_decimal_bounds (st : SynthState)
    (provider : Option LLMOutcome)
    (h : ∀ v ∈ st.vector_results, 0 ≤ v.score ∧ v.score ≤ 1) :
    0 ≤ (synthesizeAnswer st provider).confidence
      ∧ (synthesizeAnswer st provider).confidence ≤ 1
      ∧ ∃ n : ℤ, (synthesizeAnswer st provider).confidence = (n : ℚ) / 100 := by
  unfold synthesizeAnswer
  dsimp only
  split_ifs with h1 h2 h3
  · exact ⟨le_refl 0, by norm_num, 0, by norm_num⟩
  · exact ⟨le_refl 0, by norm_num, 0, by norm_num⟩
  · exact ⟨by norm_num, by norm_num, 10, by norm_num⟩
  · cases provider with
    | none => exact ⟨by norm_num, by norm_num, 50, by norm_num⟩
    | some o =>
      cases o with
      | ok a =>
        exact calculateConfidence_bounds st.kg_results st.intent
          st.vector_results st.web_results st.entities h
      | err => exact ⟨by norm_num, by norm_num, 50, by norm_num⟩

/-- C7 witness: the bounds at a concrete state and provider outcome. -/
theorem C7_confidence_two_decimal_bounds_witness :
    0 ≤ (synthesizeAnswer sampleWebState (some (.ok "a"))).confidence
      ∧ (synthesizeAnswer sampleWebState (some (.ok "a"))).confidence ≤ 1
      ∧ ∃ n : ℤ, (synthesizeAnswer sampleWebState (some (.ok "a"))).confidence
          = (n : ℚ) / 100 :=
  C7_confidence_two_decimal_bounds sampleWebState (some (.ok "a"))
    (by intro v hv; simp [sampleWebState] at hv)

/-- C10: with evidence present, the no-provider fallback cites only
knowledge-graph sources at confidence 0.5 (web results contribute nothing),
the post-LLM-error fallback does append web sources, and on an input with
web results but no knowledge-graph records the no-provider path returns an
empty sources list. -/
theorem C10_no_provider_fallback_kg_only :
    (∀ st : SynthState,
        (st.intent == some "out_of_scope") = false →
        (!st.kg_results.isEmpty || !st.vector_results.isEmpty
            || !st.web_results.isEmpty) = true →
        (synthesizeAnswer st none).sources = extractSources st.kg_results
          ∧ (synthesizeAnswer st none).confidence = 1/2)
    ∧ (∀ st : SynthState,
        (st.intent == some "out_of_scope") = false →
        (!st.kg_results.isEmpty || !st.vector_results.isEmpty
            || !st.web_results.isEmpty) = true →
        (synthesizeAnswer st (some .err)).sources
          = extractSources st.kg_results ++ extractWebSources st.web_results)
    ∧ ((synthesizeAnswer sampleWebState none).sources = []
        ∧ (synthesizeAnswer sampleWebState none).confidence = 1/2) := by
  refine ⟨?_, ?_, ⟨rfl, rfl⟩⟩
  · intro st h1 h2
    unfold synthesizeAnswer
    simp [h1, h2]
  · intro st h1 h2
    unfold synthesizeAnswer
    simp [h1, h2]

/-- C10 witness: the two fallback clauses at the concrete web-only state. -/
theorem C10_no_provider_fallback_kg_only_witness :
    ((synthesizeAnswer sampleWebState none).sources
        = extractSources sampleWebState.kg_results
      ∧ (synthesizeAnswer sampleWebState none).confidence = 1/2)
    ∧ (synthesizeAnswer sampleWebState (some .err)).sources
        = extractSources sampleWebState.kg_results
          ++ extractWebSources sampleWebState.web_results :=
  ⟨C10_no_provider_fallback_kg_only.1 sampleWebState (by decide) (by decide),
   C10_no_provider_fallback_kg_only.2.1 sampleWebState (by decide) (by decide)⟩

/-- C1: evaluation of the pipeline at an out-of-scope query: the planner
sends `out_of_scope` through its unknown-intent branch and the augmentation
upgrades it to `vector_first`; the routing function sends the empty-result
state to the web-search node, which reaches the external web call; the
retriever would run the graph enrichment query if the vector store returned
a hit; only the confidence-0 part of the claim holds. -/
theorem C1_out_of_scope_pipeline_behavior :
    planSearch (some "out_of_scope") [] "What is the weather" true
      = .planned { retrieval_type := "vector_first",
                   error := some "Unknown intent: out_of_scope",
                   vector_query := some "What is the weather" }
    ∧ shouldWebSearch (some "out_of_scope") [] [] = "web_search"
    ∧ webSearchIssuesCall (some "out_of_scope") [] [] true = true
    ∧ retrieverGraphQueried
        { retrieval_type := "vector_first",
          error := some "Unknown intent: out_of_scope",
          vector_query := some "What is the weather" }
        [⟨some "m:x", none, none, "t", 1/2⟩] = true
    ∧ (synthesizeAnswer ⟨"What is the weather", some "out_of_scope",
        [], [], [], [], none⟩ none).confidence = 0 := by
  refine ⟨by decide, by decide, by decide, by decide, by decide⟩

/-! ## Theorems: composite score monotonicity (C8) and analyzer
minimum-sample boundary (C9) -/

/-- When both score dicts cover the criteria, the accumulated total weight
is the same. -/
theorem compositeAux_snd_eq (A B : List (String × ℚ)) :
    ∀ cs : List EvaluationCriterion,
      (∀ c ∈ cs, ∃ a b, A.lookup c.id = some a ∧ B.lookup c.id = some b
        ∧ b ≤ a) →
      (compositeAux B cs).2 = (compositeAux A cs).2 := by
  intro cs
  induction cs with
  | nil => intro _; rfl
  | cons c rest ih =>
    intro hs
    obtain ⟨a, b, ha, hb, _⟩ := hs c (by simp)
    unfold compositeAux
    rw [ha, hb]
    dsimp only
    rw [ih (fun c hc => hs c (List.mem_cons_of_mem _ hc))]

/-- Pointwise larger scores give a larger weighted sum (weights positive). -/
theorem compositeAux_fst_le (A B : List (String × ℚ)) :
    ∀ cs : List EvaluationCriterion,
      (∀ c ∈ cs, 0 < c.weight) →
      (∀ c ∈ cs, ∃ a b, A.lookup c.id = some a ∧ B.lookup c.id = some b
        ∧ b ≤ a) →
      (compositeAux B cs).1 ≤ (compositeAux A cs).1 := by
  intro cs
  induction cs with
  | nil => intro _ _; exact le_refl 0
  | cons c rest ih =>
    intro hw hs
    obtain ⟨a, b, ha, hb, hle⟩ := hs c (by simp)
    unfold compositeAux
    rw [ha, hb]
    dsimp only
    have h1 := ih (fun c hc => hw c (List.mem_cons_of_mem _ hc))
      (fun c hc => hs c (List.mem_cons_of_mem _ hc))
    have h2 : b * c.weight ≤ a * c.weight :=
      mul_le_mul_of_nonneg_right hle (le_of_lt (hw c (by simp)))
    linarith

/-- The accumulated weight is nonnegative when all weights are positive. -/
theorem compositeAux_snd_nonneg (A : List (String × ℚ)) :
    ∀ cs : List EvaluationCriterion,
      (∀ c ∈ cs, 0 < c.weight) → 0 ≤ (compositeAux A cs).2 := by
  intro cs
  induction cs with
  | nil => intro _; exact le_refl 0
  | cons c rest ih =>
    intro hw
    have h1 := ih (fun c hc => hw c (List.mem_cons_of_mem _ hc))
    have h2 := hw c (by simp)
    unfold compositeAux
    cases A.lookup c.id with
    | none => exact h1
    | some s =>
      dsimp only
      linarith

/-- The accumulated weight is positive on a nonempty covered criteria list. -/
theorem compositeAux_snd_pos (A : List (String × ℚ))
    (c : EvaluationCriterion) (rest : List EvaluationCriterion)
    (hw : ∀ d ∈ c :: rest, 0 < d.weight)
    (hc : ∃ a, A.lookup c.id = some a) :
    0 < (compositeAux A (c :: rest)).2 := by
  obtain ⟨a, ha⟩ := hc
  unfold compositeAux
  rw [ha]
  dsimp only
  have h1 := compositeAux_snd_nonneg A rest
    (fun d hd => hw d (List.mem_cons_of_mem _ hd))
  have h2 := hw c (by simp)
  linarith

/-- C8: over one criteria list with positive weights, if evaluation `A`
scores at least evaluation `B` on every criterion (both present), then `A`'s
composite score is at least `B`'s. -/
theorem C8_composite_monotone (criteria : List EvaluationCriterion)
    (A B : List (String × ℚ))
    (hw : ∀ c ∈ criteria, 0 < c.weight)
    (hs : ∀ c ∈ criteria, ∃ a b, A.lookup c.id = some a
      ∧ B.lookup c.id = some b ∧ b ≤ a) :
    calculateCompositeScore B criteria ≤ calculateCompositeScore A criteria := by
  cases criteria with
  | nil => simp [calculateCompositeScore]
  | cons c rest =>
    obtain ⟨a, b, ha, hb, hle⟩ := hs c (by simp)
    have hAne : A.isEmpty = false := by
      cases A with
      | nil => simp at ha
      | cons x xs => rfl
    have hBne : B.isEmpty = false := by
      cases B with
      | nil => simp at hb
      | cons x xs => rfl
    unfold calculateCompositeScore
    rw [hAne, hBne]
    simp only [List.isEmpty_cons, Bool.false_eq_true, or_self, if_false,
      Bool.or_self]
    have hsnd := compositeAux_snd_eq A B (c :: rest) hs
    have hfst := compositeAux_fst_le A B (c :: rest) hw hs
    have hpos := compositeAux_snd_pos A c rest hw ⟨a, ha⟩
    have hBpos : 0 < (compositeAux B (c :: rest)).2 := by rw [hsnd]; exact hpos
    rw [show ((compositeAux A (c :: rest)).2 == 0) = false by
      simp [ne_of_gt hpos]]
    rw [show ((compositeAux B (c :: rest)).2 == 0) = false by
      simp [ne_of_gt hBpos]]
    simp only [Bool.false_eq_true, if_false]
    rw [hsnd]
    exact (div_le_div_iff_of_pos_right hpos).mpr hfst

/-- C8 witness: monotonicity at a concrete criteria list and score dicts. -/
theorem C8_composite_monotone_witness :
    calculateCompositeScore [("c1", 1/2)]
        [⟨"c1", "n", "p", "t", "d", 2, "r", "1.0.0", true⟩]
      ≤ calculateCompositeScore [("c1", 1)]
        [⟨"c1", "n", "p", "t", "d", 2, "r", "1.0.0", true⟩] := by
  refine C8_composite_monotone
    [⟨"c1", "n", "p", "t", "d", 2, "r", "1.0.0", true⟩]
    [("c1", 1)] [("c1", 1/2)] ?_ ?_
  · intro c hc
    rw [List.mem_singleton.mp hc]
    norm_num
  · intro c hc
    rw [List.mem_singleton.mp hc]
    exact ⟨1, 1/2, rfl, rfl, by norm_num⟩

/-- Every bucket is a sub-selection of the failure entries. -/
theorem bucket_length_le (evals : List EvalRow) (th : ℚ) (key : String) :
    (bucket evals th key).length ≤ (failureEntries evals th).length :=
  List.length_filterMap_le _ _

/-- C9: when every (agent, criterion) failure bucket holds fewer than
`min_samples` entries, the analyzer produces (and hence persists) no
patterns. -/
theorem C9_below_min_samples_no_patterns (evals : List EvalRow) (th : ℚ)
    (minSamples : ℕ) (dateStr : String)
    (h : ∀ key, (bucket evals th key).length < minSamples) :
    analyze evals th minSamples dateStr = [] := by
  unfold analyze
  split_ifs with he
  · rfl
  · apply List.filterMap_eq_nil_iff.mpr
    intro key _
    dsimp only
    rw [if_neg (Nat.not_le.mpr (h key))]

/-- C9 witness: one low-scoring evaluation is below the default
`min_samples = 5` in every bucket, so no pattern is produced. -/
theorem C9_below_min_samples_no_patterns_witness :
    (∀ key, (bucket [sampleEvalRow] 1 key).length < 5)
    ∧ analyze [sampleEvalRow] 1 5 "2026-02" = [] := by
  have hb : ∀ key, (bucket [sampleEvalRow] 1 key).length < 5 := by
    intro key
    have h1 := bucket_length_le [sampleEvalRow] 1 key
    have h2 : (failureEntries [sampleEvalRow] 1).length = 1 := by decide
    omega
  exact ⟨hb, C9_below_min_samples_no_patterns [sampleEvalRow] 1 5
    "2026-02" hb⟩

end AgentiKG
